import Mathlib

set_option maxRecDepth 8000
set_option maxHeartbeats 1600000

/-!
Shallow embedding of the structured-output recovery pipeline of the
learning-plan application (`src/lib/supabase.ts`): the response normalizer
(`cleanJsonResponse`), the escape repair engine (`fixJsonEscaping`), the
fallback field extractor (`extractContentFromResponse`), the domain coercion
helpers, and the five generation orchestrators.  JavaScript strings are
modelled as Lean `String`/`List Char`; `JSON.parse` is modelled by an
executable strict JSON parser (`parseJson`); the specific JavaScript regular
expressions used by the source are modelled by dedicated scanners whose
comments record the exact pattern and its match semantics.  JSON numbers are
modelled as exact rationals: no verified statement below depends on IEEE-754
rounding.
-/

namespace FrontEndCalc

/-- A JavaScript JSON value as produced by `JSON.parse`. -/
inductive Json where
  | null
  | bool (b : Bool)
  | num (q : Rat)
  | str (s : String)
  | arr (xs : List Json)
  | obj (fields : List (String × Json))

/-- JSON whitespace accepted by `JSON.parse` (space, tab, line feed, carriage
return only). -/
def isJsonWs (c : Char) : Bool :=
  c == ' ' || c == '\t' || c == '\n' || c == '\r'

/-- Decimal digit test. -/
def isDigitCh (c : Char) : Bool := 48 ≤ c.toNat && c.toNat ≤ 57

/-- Whitespace matched by the JavaScript regex class `\s` and trimmed by
`String.prototype.trim`: ASCII whitespace plus the common Unicode space
characters. -/
def isJsWs (c : Char) : Bool :=
  c == ' ' || c == '\t' || c == '\n' || c == '\r' || c == '\x0b' || c == '\x0c' ||
  c.toNat == 0xa0 || c.toNat == 0x1680 ||
  (0x2000 ≤ c.toNat && c.toNat ≤ 0x200a) ||
  c.toNat == 0x2028 || c.toNat == 0x2029 || c.toNat == 0x202f || c.toNat == 0x205f ||
  c.toNat == 0x3000 || c.toNat == 0xfeff

/-- JavaScript regex word character (`\w` is ASCII-only: letters, digits,
underscore). -/
def isWordChar (c : Char) : Bool :=
  ('a' ≤ c && c ≤ 'z') || ('A' ≤ c && c ≤ 'Z') || isDigitCh c || c == '_'

/-- `String.prototype.trim` on a character list: drop JS whitespace from both
ends. -/
def trimList (cs : List Char) : List Char :=
  ((cs.dropWhile isJsWs).reverse.dropWhile isJsWs).reverse

def skipJsonWs (cs : List Char) : List Char := cs.dropWhile isJsonWs

/-- Value of one hexadecimal digit, if the character is one. -/
def hexVal (c : Char) : Option Nat :=
  let n := c.toNat
  if 48 ≤ n && n ≤ 57 then some (n - 48)
  else if 97 ≤ n && n ≤ 102 then some (n - 87)
  else if 65 ≤ n && n ≤ 70 then some (n - 55)
  else none

/-- Value of a four-hex-digit escape body, if all four characters are hex. -/
def hex4 (a b c d : Char) : Option Nat :=
  match hexVal a, hexVal b, hexVal c, hexVal d with
  | some va, some vb, some vc, some vd => some (va * 4096 + vb * 256 + vc * 16 + vd)
  | _, _, _, _ => none

/-- Numeric value of a run of decimal digits. -/
def digitsToNat (ds : List Char) : Nat :=
  ds.foldl (fun acc c => 10 * acc + (c.toNat - 48)) 0

/-- The exact rational `±m × 10^e`, built directly with `mkRat` (whose
normalization evaluates by reduction, unlike the irreducible `Rat`
arithmetic). -/
def mkDecRat (neg : Bool) (m : Nat) (e : Int) : Rat :=
  let sm : Int := if neg then -(m : Int) else (m : Int)
  if 0 ≤ e then mkRat (sm * ((10 ^ e.toNat : Nat) : Int)) 1
  else mkRat sm (10 ^ (-e).toNat)

/-- Parse the body of a JSON string literal after the opening quote.  Strict
`JSON.parse` string grammar: raw control characters below U+0020 are rejected,
escapes are the eight short ones plus `\uXXXX`.  Surrogate pairs written as two
`\u` escapes are combined; a lone surrogate (representable in JavaScript but
not as a Lean `Char`) is mapped to U+FFFD, a divergence no verified statement
depends on. -/
def pStr (fuel : Nat) (cs : List Char) : Option (List Char × List Char) :=
  match fuel, cs with
  | 0, _ => none
  | _, [] => none
  | _ + 1, '"' :: rest => some ([], rest)
  | fuel + 1, '\\' :: 'u' :: a :: b :: c :: d :: rest =>
    match hex4 a b c d with
    | none => none
    | some n =>
      if 0xd800 ≤ n && n ≤ 0xdbff then
        match rest with
        | '\\' :: 'u' :: a2 :: b2 :: c2 :: d2 :: rest2 =>
          match hex4 a2 b2 c2 d2 with
          | some m =>
            if 0xdc00 ≤ m && m ≤ 0xdfff then
              (pStr fuel rest2).map (fun r =>
                (Char.ofNat (0x10000 + (n - 0xd800) * 0x400 + (m - 0xdc00)) :: r.1, r.2))
            else (pStr fuel rest).map (fun r => ('�' :: r.1, r.2))
          | none => (pStr fuel rest).map (fun r => ('�' :: r.1, r.2))
        | _ => (pStr fuel rest).map (fun r => ('�' :: r.1, r.2))
      else if 0xdc00 ≤ n && n ≤ 0xdfff then
        (pStr fuel rest).map (fun r => ('�' :: r.1, r.2))
      else
        (pStr fuel rest).map (fun r => (Char.ofNat n :: r.1, r.2))
  | fuel + 1, '\\' :: e :: rest =>
    let esc : Option Char :=
      match e with
      | 'n' => some '\n'
      | 't' => some '\t'
      | 'r' => some '\r'
      | 'b' => some '\x08'
      | 'f' => some '\x0c'
      | '"' => some '"'
      | '\\' => some '\\'
      | '/' => some '/'
      | _ => none
    match esc with
    | some ch => (pStr fuel rest).map (fun r => (ch :: r.1, r.2))
    | none => none
  | fuel + 1, c :: rest =>
    if c.toNat < 0x20 then none
    else (pStr fuel rest).map (fun r => (c :: r.1, r.2))

/-- Parse the unsigned part of a JSON number literal (`0` or a nonzero-led
digit run, optional fraction, optional exponent), as an exact rational with
the given sign. -/
def pNumCore (neg : Bool) (cs1 : List Char) : Option (Rat × List Char) :=
  let (intDs, cs2) := cs1.span isDigitCh
  if intDs.isEmpty then none
  else if intDs.length > 1 && intDs.headD '0' == '0' then none
  else
    let (fracDs, cs3) :=
      match cs2 with
      | '.' :: r => r.span isDigitCh
      | _ => ([], cs2)
    let hadDot : Bool := match cs2 with | '.' :: _ => true | _ => false
    if hadDot && fracDs.isEmpty then none
    else
      let (expOk, expVal, cs4) :=
        match cs3 with
        | 'e' :: r | 'E' :: r =>
          let (esign, r2) : Int × List Char :=
            match r with
            | '+' :: rr => (1, rr)
            | '-' :: rr => (-1, rr)
            | _ => (1, r)
          let (expDs, r3) := r2.span isDigitCh
          if expDs.isEmpty then (false, (0 : Int), cs3)
          else (true, esign * (digitsToNat expDs : Int), r3)
        | _ => (true, 0, cs3)
      if !expOk then none
      else
        let mantissa : Nat := digitsToNat intDs * 10 ^ fracDs.length + digitsToNat fracDs
        some (mkDecRat neg mantissa (expVal - fracDs.length), cs4)

/-- Parse a JSON number literal, strict grammar, with its optional minus. -/
def pNum (cs : List Char) : Option (Rat × List Char) :=
  match cs with
  | '-' :: tail => pNumCore true tail
  | _ => pNumCore false cs

mutual

/-- Strict JSON value parser (fuel-structural so the kernel can evaluate it). -/
def pValue (fuel : Nat) (cs : List Char) : Option (Json × List Char) :=
  match fuel with
  | 0 => none
  | fuel + 1 =>
    match cs with
    | [] => none
    | 't' :: 'r' :: 'u' :: 'e' :: rest => some (.bool true, rest)
    | 'f' :: 'a' :: 'l' :: 's' :: 'e' :: rest => some (.bool false, rest)
    | 'n' :: 'u' :: 'l' :: 'l' :: rest => some (.null, rest)
    | '"' :: rest => (pStr (rest.length + 1) rest).map (fun r => (.str ⟨r.1⟩, r.2))
    | '{' :: rest =>
      let rest1 := skipJsonWs rest
      (match rest1 with
       | '}' :: rest2 => some (.obj [], rest2)
       | _ => (pMembers fuel rest1).map (fun r => (.obj r.1, r.2)))
    | '[' :: rest =>
      let rest1 := skipJsonWs rest
      (match rest1 with
       | ']' :: rest2 => some (.arr [], rest2)
       | _ => (pElems fuel rest1).map (fun r => (.arr r.1, r.2)))
    | c :: _ =>
      if c == '-' || isDigitCh c then (pNum cs).map (fun r => (.num r.1, r.2))
      else none

/-- Parse one or more `"key": value` members followed by `}`. -/
def pMembers (fuel : Nat) (cs : List Char) : Option (List (String × Json) × List Char) :=
  match fuel with
  | 0 => none
  | fuel + 1 =>
    match cs with
    | '"' :: rest =>
      match pStr (rest.length + 1) rest with
      | none => none
      | some (key, rest1) =>
        match skipJsonWs rest1 with
        | ':' :: rest2 =>
          match pValue fuel (skipJsonWs rest2) with
          | none => none
          | some (v, rest3) =>
            match skipJsonWs rest3 with
            | ',' :: rest4 =>
              (pMembers fuel (skipJsonWs rest4)).map
                (fun r => ((⟨key⟩, v) :: r.1, r.2))
            | '}' :: rest4 => some ([(⟨key⟩, v)], rest4)
            | _ => none
        | _ => none
    | _ => none

/-- Parse one or more array elements followed by `]`. -/
def pElems (fuel : Nat) (cs : List Char) : Option (List Json × List Char) :=
  match fuel with
  | 0 => none
  | fuel + 1 =>
    match pValue fuel cs with
    | none => none
    | some (v, rest) =>
      match skipJsonWs rest with
      | ',' :: rest2 => (pElems fuel (skipJsonWs rest2)).map (fun r => (v :: r.1, r.2))
      | ']' :: rest2 => some ([v], rest2)
      | _ => none

end

/-- `JSON.parse`: strict parse of the whole string, allowing only JSON
whitespace around the single top-level value. -/
def parseJson (s : String) : Option Json :=
  match pValue (s.data.length + 2) (skipJsonWs s.data) with
  | some (v, rest) => if (skipJsonWs rest).isEmpty then some v else none
  | none => none

/-! ### Response Normalizer (`cleanJsonResponse`, supabase.ts lines 278-297) -/

def jsonFence : List Char := "```json".data
def bareFence : List Char := "```".data

/-- Does `cs` end with the list `pat`? (JS `String.prototype.endsWith`). -/
def endsWithList (pat cs : List Char) : Bool :=
  List.isPrefixOf pat.reverse cs.reverse

/-- Leading-fence strip of `cleanJsonResponse`: slice off a leading
```` ```json ```` (7 characters), else a leading ```` ``` ```` (3 characters),
then re-trim; no fence is a no-op. -/
def stripLeadFence (t : List Char) : List Char :=
  if List.isPrefixOf jsonFence t then trimList (t.drop 7)
  else if List.isPrefixOf bareFence t then trimList (t.drop 3)
  else t

/-- Trailing-fence strip of `cleanJsonResponse`: slice off a trailing
```` ``` ```` and re-trim; no fence is a no-op. -/
def stripTrailFence (t : List Char) : List Char :=
  if endsWithList bareFence t then trimList (t.take (t.length - 3)) else t

/-- Core of `cleanJsonResponse`: trim, strip a leading fence, strip a trailing
fence.  A direct transcription of the source; no validation, never fails. -/
def cleanCore (cs : List Char) : List Char :=
  stripTrailFence (stripLeadFence (trimList cs))

/-- `cleanJsonResponse` from the source: remove a markdown code-fence wrapper
if present. -/
def cleanJsonResponse (content : String) : String :=
  ⟨cleanCore content.data⟩

/-! ### Escape Repair Engine (`fixJsonEscaping`, supabase.ts lines 300-407)

The repair passes are transcriptions of the JavaScript regex replaces the
source applies in order once the strict parse fails.  Each scanner follows the
documented leftmost-match / greedy semantics of the concrete pattern. -/

/-- The escape chain of the source (lines 313-320 and its two copies):
`.replace(/\\/g,'\\\\').replace(/"/g,'\\"').replace(/\n/g,'\\n')`
`.replace(/\r/g,'\\r').replace(/\t/g,'\\t').replace(/\f/g,'\\f')`.
The six chained global replaces touch pairwise disjoint characters and none of
their outputs contains a later target, so the chain equals the single
character-wise map `charEsc` below; `escLetter` gives the escape letter of the
characters those replaces target. -/
def escLetter (c : Char) : Option Char :=
  if c == '\\' then some '\\'
  else if c == '"' then some '"'
  else if c == '\n' then some 'n'
  else if c == '\r' then some 'r'
  else if c == '\t' then some 't'
  else if c == '\x0c' then some 'f'
  else none

def charEsc : List Char → List Char
  | [] => []
  | c :: rest =>
    match escLetter c with
    | some l => '\\' :: l :: charEsc rest
    | none => c :: charEsc rest

/-- The final step of the source's escape chain, line 320:
`.replace(/\b/g, '\\b')`.  In a JavaScript regex `\b` outside a character
class is a **word-boundary assertion**, not a backspace, so this inserts the
two characters `\` `b` at every word boundary (a position whose two sides
disagree on `\w`-membership, string edges counting as non-word). -/
def insertWB (cs : List Char) : List Char :=
  go false cs
where
  go : Bool → List Char → List Char
    | prevW, [] => if prevW then ['\\', 'b'] else []
    | prevW, c :: rest =>
      let w := isWordChar c
      (if prevW != w then ['\\', 'b'] else []) ++ c :: go w rest

/-- Full escape used in every replacement callback of `fixJsonEscaping`:
six character escapes, then the word-boundary replace of line 320. -/
def escapeForJson (cs : List Char) : List Char :=
  insertWB (charEsc cs)

/-- First delimiter character (per `isD`) not immediately preceded by a
backslash, splitting the input into (content before it, rest after it).
`prev` is the character just before the current head. -/
def firstUnescSplit (isD : Char → Bool) : Char → List Char → Option (List Char × List Char)
  | _, [] => none
  | prev, c :: rest =>
    if isD c && prev != '\\' then some ([], rest)
    else (firstUnescSplit isD c rest).map (fun r => (c :: r.1, r.2))

/-- Split at the last delimiter character (per `isD`), if any. -/
def lastDelimSplit (isD : Char → Bool) (cs : List Char) : Option (List Char × List Char) :=
  match cs.reverse.findIdx? isD with
  | none => none
  | some k =>
    let i := cs.length - 1 - k
    some (cs.take i, cs.drop (i + 1))

/-- Closing delimiter for the regex group `[^D]*(?:\\.[^D]*)*` followed by a
literal delimiter `D` (dot-all).  The group accepts exactly the strings whose
every `D` is immediately preceded by a backslash, so the greedy match closes at
the first unescaped `D`; when every `D` is escaped the longest valid group
closes at the last `D`; with no `D` at all there is no match. -/
def splitClose (isD : Char → Bool) (cs : List Char) : Option (List Char × List Char) :=
  match firstUnescSplit isD 'x' cs with
  | some r => some r
  | none => lastDelimSplit isD cs

def backtickCh : Char := '`'

/-- Try to match, at the head of `cs`, the regex
`/"content":\s*`([^`]*(?:\\.[^`]*)*)`/` (or the same with another literal
key): the literal `"key":`, then greedy `\s*`, then a backtick-quoted group
per `splitClose`.  Returns the group and the rest after the closing
backtick. -/
def tryBacktickAt (key : List Char) (cs : List Char) : Option (List Char × List Char) :=
  if List.isPrefixOf ('"' :: key ++ ['"', ':']) cs then
    let r1 := (cs.drop (key.length + 3)).dropWhile isJsWs
    match r1 with
    | c :: r2 => if c == backtickCh then splitClose (· == backtickCh) r2 else none
    | [] => none
  else none

/-- Replacement emitted by the backtick passes:
`"key": "<escaped content>"` (single space after the colon, as in the
template literal of the source). -/
def keyRepl (key content : List Char) : List Char :=
  '"' :: key ++ ['"', ':', ' ', '"'] ++ escapeForJson content ++ ['"']

/-- Pass 1, lines 311-323: global replace of
`/"content":\s*`([^`]*(?:\\.[^`]*)*)`/gs` by the escaped double-quoted field.
Scans left to right; after a match the scan resumes after the closing
backtick, as the JavaScript engine does with `lastIndex`. -/
def passBacktickField (key : List Char) : Nat → List Char → List Char
  | 0, cs => cs
  | fuel + 1, cs =>
    match cs with
    | [] => []
    | c :: rest =>
      match tryBacktickAt key cs with
      | some (content, after) => keyRepl key content ++ passBacktickField key fuel after
      | none => c :: passBacktickField key fuel rest

/-- Try to match, at the head of `cs`, the generic-field regex of pass 2,
`/"(\w+)":\s*`([^`]*(?:\\.[^`]*)*)`/gs`: a quoted `\w+` key, colon, `\s*`,
then a backtick-quoted group.  Returns (key, group, rest). -/
def tryGenericBacktickAt (cs : List Char) : Option (List Char × List Char × List Char) :=
  match cs with
  | '"' :: r1 =>
    let key := r1.takeWhile isWordChar
    if key.isEmpty then none
    else
      match r1.drop key.length with
      | '"' :: ':' :: r2 =>
        (match (r2.dropWhile isJsWs) with
         | c :: r3 =>
           if c == backtickCh then
             (splitClose (· == backtickCh) r3).map (fun r => (key, r.1, r.2))
           else none
         | [] => none)
      | _ => none
  | _ => none

/-- Pass 2, lines 326-337: the generic backtick-field replace, global. -/
def passGenericBacktick : Nat → List Char → List Char
  | 0, cs => cs
  | fuel + 1, cs =>
    match cs with
    | [] => []
    | c :: rest =>
      match tryGenericBacktickAt cs with
      | some (key, content, after) =>
        keyRepl key content ++ passGenericBacktick fuel after
      | none => c :: passGenericBacktick fuel rest

/-- Does `pat` occur as a contiguous sublist of `cs`? (JS `String.includes`). -/
def containsSub (pat : List Char) : List Char → Bool
  | [] => pat.isEmpty
  | c :: rest => List.isPrefixOf pat (c :: rest) || containsSub pat rest

/-- Try to match, at the head of `cs`, the double-quoted-field regex of
passes 3-4, `/"key":\s*"([^"]*(?:\\.[^"]*)*)"/`: literal `"key":`, `\s*`, a
quote, then a quote-delimited group per `splitClose`. -/
def tryQuotedAt (key : List Char) (cs : List Char) : Option (List Char × List Char) :=
  if List.isPrefixOf ('"' :: key ++ ['"', ':']) cs then
    match (cs.drop (key.length + 3)).dropWhile isJsWs with
    | '"' :: r2 => splitClose (· == '"') r2
    | _ => none
  else none

/-- Find the first (leftmost) match of the pass-3/4 pattern, returning
(prefix before the match, group, rest after the closing quote). -/
def firstQuotedSplit (key : List Char) : Nat → List Char → Option (List Char × List Char × List Char)
  | 0, _ => none
  | fuel + 1, cs =>
    match cs with
    | [] => none
    | c :: rest =>
      match tryQuotedAt key cs with
      | some (content, after) => some ([], content, after)
      | none =>
        (firstQuotedSplit key fuel rest).map (fun r => (c :: r.1, r.2.1, r.2.2))

/-- Passes 3 (lines 340-357, key `content`) and 4 (lines 360-377, key
`answer`): non-global replace of the first `"key": "..."` occurrence.  The
callback returns the match unchanged — leaving the whole string unchanged —
when the group already contains an escaped newline (`\n` as two characters) or
an escaped quote; otherwise it substitutes the re-escaped group. -/
def replaceQuotedOnce (key : List Char) (cs : List Char) : List Char :=
  match firstQuotedSplit key (cs.length + 1) cs with
  | none => cs
  | some (pre, content, after) =>
    if containsSub ['\\', 'n'] content || containsSub ['\\', '"'] content then cs
    else pre ++ keyRepl key content ++ after

/-- Line terminators after which the multiline anchor `^` matches in a
JavaScript regex. -/
def isLineTermCh (c : Char) : Bool :=
  c == '\n' || c == '\r' || c.toNat == 0x2028 || c.toNat == 0x2029

/-- Is the character in the class `[\s*-]` of the line-marker strip? -/
def isMarkerCh (c : Char) : Bool := isJsWs c || c == '*' || c == '-'

/-- The callback of pass 5: `content.replace(/^[\s*-]+/gm, '')` — at the
string start and after every line terminator, drop the maximal run of
whitespace/`*`/`-` characters (the run itself may span further line
terminators, since `\n ∈ \s`). -/
def stripLineMarkers (cs : List Char) : List Char :=
  go ((cs.dropWhile isMarkerCh).length) (cs.dropWhile isMarkerCh)
where
  go : Nat → List Char → List Char
    | 0, cs' => cs'
    | fuel + 1, cs' =>
      match cs' with
      | [] => []
      | c :: rest =>
        if isLineTermCh c then c :: go fuel (rest.dropWhile isMarkerCh)
        else c :: go fuel rest

/-- Try to match, at the head of `cs`, the pass-5 pattern
`/"content":\s*"([^"]*)"/`: here the group is plain `[^"]*`, so it closes at
the very first quote. -/
def tryPlainContentAt (cs : List Char) : Option (List Char × List Char) :=
  if List.isPrefixOf "\"content\":".data cs then
    match (cs.drop 10).dropWhile isJsWs with
    | '"' :: r2 =>
      let content := r2.takeWhile (· != '"')
      (match r2.drop content.length with
       | '"' :: after => some (content, after)
       | _ => none)
    | _ => none
  else none

/-- Pass 5, lines 380-384: global replace of `/"content":\s*"([^"]*)"/g`,
substituting the group with its leading line markers stripped. -/
def passContentStrip : Nat → List Char → List Char
  | 0, cs => cs
  | fuel + 1, cs =>
    match cs with
    | [] => []
    | c :: rest =>
      match tryPlainContentAt cs with
      | some (content, after) =>
        "\"content\": \"".data ++ stripLineMarkers content ++ '"' :: passContentStrip fuel after
      | none => c :: passContentStrip fuel rest

/-- The value alternation and lookahead of the truncation-recovery regex
(line 389): after `"key"\s*:\s*`, try `"[^"]*"` first, else `[^,}]+`, both
subject to the lookahead `(?=\s*[,}])`.  `cs` starts at the value; on success
returns the number of characters the value consumes. -/
def valueAltLen (cs : List Char) : Option Nat :=
  let alt2 : Option Nat :=
    let run := cs.takeWhile (fun c => c != ',' && c != '}')
    if run.isEmpty then none
    else
      match cs.drop run.length with
      | _ :: _ => some run.length
      | [] => none
  match cs with
  | '"' :: r1 =>
    let inner := r1.takeWhile (· != '"')
    (match r1.drop inner.length with
     | '"' :: r2 =>
       (match (r2.dropWhile isJsWs) with
        | c :: _ => if c == ',' || c == '}' then some (inner.length + 2) else alt2
        | [] => alt2)
     | _ => alt2)
  | _ => alt2

/-- Match the tail `"[^"]+"\s*:\s*(?:"[^"]*"|[^,}]+)(?=\s*[,}])` of the
truncation-recovery regex at the head of `cs`, returning how many characters
it consumes (the lookahead consumes nothing). -/
def tailMatchLen (cs : List Char) : Option Nat :=
  match cs with
  | '"' :: r1 =>
    let key := r1.takeWhile (· != '"')
    if key.isEmpty then none
    else
      match r1.drop key.length with
      | '"' :: r2 =>
        let w1 := r2.takeWhile isJsWs
        (match r2.drop w1.length with
         | ':' :: r4 =>
           let w2 := r4.takeWhile isJsWs
           (valueAltLen (r4.drop w2.length)).map
             (fun v => key.length + w1.length + w2.length + 3 + v)
         | _ => none)
      | _ => none
  | _ => none

/-- The greedy leading `.*` of `/.*"[^"]+"\s*:\s*(?:"[^"]*"|[^,}]+)(?=\s*[,}])/s`
makes the engine try the tail at the rightmost position first.  `tryFrom cs k`
tries start positions `k-1, k-2, …, 0` and returns the end position (prefix
length) of the overall match. -/
def tryFrom (cs : List Char) : Nat → Option Nat
  | 0 => none
  | p + 1 =>
    match tailMatchLen (cs.drop p) with
    | some l => some (p + l)
    | none => tryFrom cs p

/-- Index of the first occurrence of `c` (JS `String.indexOf`). -/
def idxOfCh (cs : List Char) (c : Char) : Option Nat :=
  cs.findIdx? (· == c)

/-- Index of the last occurrence of `c` (JS `String.lastIndexOf`). -/
def lastIdxOfCh (cs : List Char) (c : Char) : Option Nat :=
  (cs.reverse.findIdx? (· == c)).map (fun k => cs.length - 1 - k)

/-- Pass 6, lines 386-403: truncation recovery.  If the trimmed string does
not end in `}` or `]`, cut right after the last complete `"key": value` pair
and append `}`; failing that, cut just after the opening `{` (or after the
last comma beyond it) and append `}`; with no `{` at all leave the string
unchanged. -/
def truncFix (cs : List Char) : List Char :=
  let t := trimList cs
  if t.getLast? == some '}' || t.getLast? == some ']' then cs
  else
    match tryFrom cs cs.length with
    | some e => cs.take e ++ ['}']
    | none =>
      match idxOfCh cs '{' with
      | some ob =>
        let cut :=
          match lastIdxOfCh cs ',' with
          | some lc => if ob < lc then lc else ob + 1
          | none => ob + 1
        cs.take cut ++ ['}']
      | none => cs

def contentKey : List Char := "content".data
def answerKey : List Char := "answer".data

/-- `fixJsonEscaping` from the source, lines 300-407: return the input
unchanged when it already parses strictly; otherwise run the six repair
passes in order. -/
def fixJsonEscaping (s : String) : String :=
  match parseJson s with
  | some _ => s
  | none =>
    let f1 := passBacktickField contentKey (s.data.length + 1) s.data
    let f2 := passGenericBacktick (f1.length + 1) f1
    let f3 := replaceQuotedOnce contentKey f2
    let f4 := replaceQuotedOnce answerKey f3
    let f5 := passContentStrip (f4.length + 1) f4
    ⟨truncFix f5⟩

/-! ### Fallback field extractor (`extractContentFromResponse`, lines 644-670) -/

/-- Result shape of `extractContentFromResponse`: genuinely strings, since the
extractor builds them itself. -/
structure ExtractedContent where
  content : String
  keyPoints : List String
  examples : List String
  practicalApplications : List String

/-- Replace every occurrence of the sublist `pat` by `rep`, left to right,
non-overlapping (JS `String.replace` with a global literal-ish pattern). -/
def replaceSub (pat rep : List Char) : Nat → List Char → List Char
  | 0, cs => cs
  | fuel + 1, cs =>
    match cs with
    | [] => []
    | c :: rest =>
      if pat ≠ [] && List.isPrefixOf pat cs then
        rep ++ replaceSub pat rep fuel (cs.drop pat.length)
      else c :: replaceSub pat rep fuel rest

/-- Try to match, at the head of `cs`, the extractor's content pattern
`/"content":\s*[`"]([^`"]*(?:\\.[^`"]*)*)[`"]/s`: either delimiter may open
and either may close; the group closes at the first unescaped backtick or
quote (last one when all are escaped). -/
def tryExtractContentAt (cs : List Char) : Option (List Char) :=
  if List.isPrefixOf "\"content\":".data cs then
    match (cs.drop 10).dropWhile isJsWs with
    | c :: r2 =>
      if c == backtickCh || c == '"' then
        (splitClose (fun d => d == backtickCh || d == '"') r2).map (·.1)
      else none
    | [] => none
  else none

/-- First match of the extractor's content pattern anywhere in the string. -/
def findExtractContent : Nat → List Char → Option (List Char)
  | 0, _ => none
  | fuel + 1, cs =>
    match cs with
    | [] => none
    | _ :: rest =>
      match tryExtractContentAt cs with
      | some content => some content
      | none => findExtractContent fuel rest

/-- Try to match, at the head of `cs`, an array-field pattern
`/"key":\s*\[(.*?)\]/s`: the lazy group closes at the first `]`. -/
def tryExtractArrayAt (key : List Char) (cs : List Char) : Option (List Char) :=
  if List.isPrefixOf ('"' :: key ++ ['"', ':']) cs then
    match (cs.drop (key.length + 3)).dropWhile isJsWs with
    | '[' :: r2 =>
      let body := r2.takeWhile (· != ']')
      (match r2.drop body.length with
       | ']' :: _ => some body
       | _ => none)
    | _ => none
  else none

/-- First match of an array-field pattern anywhere in the string. -/
def findExtractArray (key : List Char) : Nat → List Char → Option (List Char)
  | 0, _ => none
  | fuel + 1, cs =>
    match cs with
    | [] => none
    | _ :: rest =>
      match tryExtractArrayAt key cs with
      | some body => some body
      | none => findExtractArray key fuel rest

/-- Split a character list at every comma (JS `String.split(',')`). -/
def splitOnComma : List Char → List (List Char)
  | [] => [[]]
  | c :: rest =>
    let r := splitOnComma rest
    if c == ',' then [] :: r
    else
      match r with
      | piece :: more => (c :: piece) :: more
      | [] => [[c]]

/-- Strip one leading and one trailing quote character, single or double
(JS `item.replace(/^["']|["']$/g, '')`). -/
def stripWrapQuotes (cs : List Char) : List Char :=
  let cs1 := match cs with
    | c :: rest => if c == '"' || c == '\'' then rest else cs
    | [] => []
  match cs1.reverse with
  | c :: rest => if c == '"' || c == '\'' then rest.reverse else cs1
  | [] => []

/-- `extractArray` from the source: split the bracketed body on commas, trim
each piece, strip wrapping quotes, drop empties. -/
def extractArray (body : Option (List Char)) : List String :=
  match body with
  | none => []
  | some cs =>
    ((splitOnComma cs).map (fun p => (⟨stripWrapQuotes (trimList p)⟩ : String))).filter
      (fun s => s ≠ "")

/-- `extractContentFromResponse` from the source, lines 644-670: independent
regex matches for the four fields; the content group has `\n` and `\"`
unescaped in that order; arrays go through `extractArray`. -/
def extractContentFromResponse (response : String) : ExtractedContent :=
  let cs := response.data
  let n := cs.length + 1
  { content :=
      match findExtractContent n cs with
      | some g =>
        ⟨replaceSub ['\\', '"'] ['"'] (g.length + 1)
          (replaceSub ['\\', 'n'] ['\n'] (g.length + 1) g)⟩
      | none => "Content could not be extracted from the response."
    keyPoints := extractArray (findExtractArray "keyPoints".data n cs)
    examples := extractArray (findExtractArray "examples".data n cs)
    practicalApplications := extractArray (findExtractArray "practicalApplications".data n cs) }

/-! ### JavaScript value coercion helpers (used by the Domain Coercion Layer) -/

/-- JavaScript property access `obj.key` on a parsed JSON value: only objects
have own properties; for duplicate keys the later member wins.  (Access on
`null` throws in JavaScript; the orchestrator embeddings below route the
`parsed = null` case to their catch paths before using this.) -/
def jsGet (j : Json) (k : String) : Option Json :=
  match j with
  | .obj fs => fs.foldl (fun acc p => if p.1 == k then some p.2 else acc) none
  | _ => none

/-- JavaScript truthiness of a JSON value. -/
def jsTruthy : Json → Bool
  | .null => false
  | .bool b => b
  | .num q => decide (q ≠ 0)
  | .str s => s ≠ ""
  | .arr _ => true
  | .obj _ => true

/-- Smallest `k ≤ fuel` with `d ∣ 10^k`, if any. -/
def decExpGo (d : Nat) : Nat → Nat → Option Nat
  | k, 0 => if 10 ^ k % d == 0 then some k else none
  | k, fuel + 1 => if 10 ^ k % d == 0 then some k else decExpGo d (k + 1) fuel

/-- Left-pad a numeral string with zeros to `k` digits and strip trailing
zeros. -/
def fracDigitsStr (fr k : Nat) : String :=
  let s := toString fr
  let padded := String.mk (List.replicate (k - s.length) '0') ++ s
  ⟨(padded.data.reverse.dropWhile (· == '0')).reverse⟩

/-- JavaScript `String(n)` for a number, restricted to the values reachable
here: integers print exactly as in JavaScript; non-integral rationals coming
out of `parseJson` always have a denominator dividing a power of ten and print
as their finite decimal expansion (JavaScript's shortest-round-trip float
printing agrees on every value the verified statements touch; no statement
depends on float formatting of other values). -/
def ratToJsString (q : Rat) : String :=
  if q.den = 1 then toString q.num
  else
    match decExpGo q.den 0 64 with
    | some k =>
      let sign := if q.num < 0 then "-" else ""
      let n := q.num.natAbs
      sign ++ toString (n / q.den) ++ "." ++ fracDigitsStr (n % q.den * 10 ^ k / q.den) k
    | none => toString q.num ++ "/" ++ toString q.den

mutual

/-- JavaScript `String(v)` on a JSON value: an array renders as
`Array.prototype.join(',')`, a plain object as `"[object Object]"`. -/
def jsToString : Json → String
  | .null => "null"
  | .bool b => if b then "true" else "false"
  | .num q => ratToJsString q
  | .str s => s
  | .arr xs => String.intercalate "," (jsJoinParts xs)
  | .obj _ => "[object Object]"

/-- `Array.prototype.join` element rendering: `null` (and `undefined`) become
the empty string, everything else goes through `String(·)`. -/
def jsJoinParts : List Json → List String
  | [] => []
  | .null :: xs => "" :: jsJoinParts xs
  | x :: xs => jsToString x :: jsJoinParts xs

end

/-- The numeric domain of JavaScript `Number(·)` as needed here: NaN, the two
infinities, or a finite (exact rational) value. -/
inductive JsNum where
  | nan
  | posInf
  | negInf
  | fin (q : Rat)

/-- Numeric radix digits for `Number("0x…")`/`0o…`/`0b…`. -/
def radixDigitVal (r : Nat) (c : Char) : Option Nat :=
  match hexVal c with
  | some v => if v < r then some v else none
  | none => none

def radixNum (r : Nat) (cs : List Char) : JsNum :=
  if cs.isEmpty then .nan
  else
    match cs.foldl (fun acc c =>
      match acc, radixDigitVal r c with
      | some a, some v => some (a * r + v)
      | _, _ => none) (some 0) with
    | some n => .fin (n : Rat)
    | none => .nan

/-- The `StrDecimalLiteral` part of `Number(string)`: digits with optional
fraction and exponent, allowing `5.`, `.5`, `5e3`; whole-input match.
Returns the literal as (decimal mantissa, power-of-ten exponent). -/
def decLit (cs : List Char) : Option (Nat × Int) :=
  let (d1, r1) := cs.span isDigitCh
  let (d2, r2) :=
    match r1 with
    | '.' :: rr => rr.span isDigitCh
    | _ => ([], r1)
  if d1.isEmpty && d2.isEmpty then none
  else
    let m : Nat := digitsToNat d1 * 10 ^ d2.length + digitsToNat d2
    match r2 with
    | [] => some (m, -(d2.length : Int))
    | e :: r3 =>
      if e == 'e' || e == 'E' then
        let (esign, r4) : Int × List Char :=
          match r3 with
          | '+' :: rr => (1, rr)
          | '-' :: rr => (-1, rr)
          | _ => (1, r3)
        let (d3, r5) := r4.span isDigitCh
        if d3.isEmpty || !r5.isEmpty then none
        else some (m, esign * (digitsToNat d3 : Int) - (d2.length : Int))
      else none

/-- Signed decimal or `Infinity` alternative of `Number(string)`. -/
def decOrInf (cs : List Char) (neg : Bool) : JsNum :=
  if cs == "Infinity".data then (if neg then .negInf else .posInf)
  else
    match decLit cs with
    | some (m, e) => .fin (mkDecRat neg m e)
    | none => .nan

/-- JavaScript `Number(string)`: trim; empty means 0; optional sign only on
decimal/`Infinity`; unsigned hex/octal/binary literals; anything else NaN. -/
def strToNumber (s : String) : JsNum :=
  match trimList s.data with
  | [] => .fin 0
  | '+' :: rest => decOrInf rest false
  | '-' :: rest => decOrInf rest true
  | '0' :: x :: rest =>
    if x == 'x' || x == 'X' then radixNum 16 rest
    else if x == 'o' || x == 'O' then radixNum 8 rest
    else if x == 'b' || x == 'B' then radixNum 2 rest
    else decOrInf ('0' :: x :: rest) false
  | cs => decOrInf cs false

/-- JavaScript `Number(v)` on a possibly-missing JSON value: `undefined` is
NaN, `null` is 0, booleans are 0/1, strings parse as numeric literals, arrays
convert via their join string, plain objects via `"[object Object]"` (NaN). -/
def toNumber : Option Json → JsNum
  | none => .nan
  | some .null => .fin 0
  | some (.bool b) => .fin (if b then 1 else 0)
  | some (.num q) => .fin q
  | some (.str s) => strToNumber s
  | some (.arr xs) => strToNumber (jsToString (.arr xs))
  | some (.obj fs) => strToNumber (jsToString (.obj fs))

/-- The score coercion of `gradeTheoryAnswer`, line 851:
`Math.max(0, Math.min(10, Number(parsed.score) || 0))`.  `|| 0` turns NaN
(and ±0) into 0 before the clamp; the clamp maps +∞ to 10 and −∞ to 0. -/
def scoreOf (v : Option Json) : Rat :=
  match toNumber v with
  | .nan => 0
  | .posInf => 10
  | .negInf => 0
  | .fin q =>
    let m : Rat := if 10 ≤ q then 10 else q
    if m ≤ 0 then 0 else m

/-- `String(v || default)`: the default string is used when the field is
missing or falsy; otherwise `String(v)`. -/
def strOrDefault (v : Option Json) (d : String) : String :=
  match v with
  | some x => if jsTruthy x then jsToString x else d
  | none => d

/-- `Array.isArray(v) ? v.filter(Boolean) : []` keeping raw elements. -/
def arrFilterTruthy (v : Option Json) : List Json :=
  match v with
  | some (.arr xs) => xs.filter jsTruthy
  | _ => []

/-- `Array.isArray(v) ? v.map(String) : []`. -/
def arrMapString (v : Option Json) : List String :=
  match v with
  | some (.arr xs) => xs.map jsToString
  | _ => []

/-- `Array.isArray(v) ? v : []` (no per-element conversion). -/
def arrRaw (v : Option Json) : List Json :=
  match v with
  | some (.arr xs) => xs
  | _ => []

/-! ### Generation orchestrators (supabase.ts lines 480-947)

Each operation is modelled as a pure function of (a) whether a model client is
configured (`groq : Bool`), (b) the outcome of the remote call
(`resp : Option String`; `none` covers a transport error or a missing message,
both of which land in the same `try`/`catch` as an exception), and (c) the
operation's own inputs.  The prompt-building code has no effect on the
returned value and is not modelled. -/

/-- JavaScript errors that can escape an operation. -/
inductive JsError where
  | referenceError

/-- `createFallbackLearningPlan` (lines 480-499) rendered as the JSON object
the JavaScript function builds: day `i` runs from 1 to `min durationDays 7`. -/
def fallbackDay (topic : String) (i : Nat) : Json :=
  .obj
    [("day", .num i),
     ("title", .str ("Day " ++ toString i ++ ": Introduction to " ++ topic)),
     ("subtopics", .arr
       [.str ("Basic concepts of " ++ topic),
        .str ("Getting started with " ++ topic),
        .str "Practical applications"]),
     ("explanations", .arr
       [.str ("Learn the fundamental concepts and principles of " ++ topic ++ "."),
        .str "Set up your development environment and create your first project.",
        .str "Explore real-world applications and use cases."])]

def createFallbackLearningPlan (topic : String) (durationDays : Nat) : Json :=
  .obj [("days", .arr ((List.range' 1 (min durationDays 7)).map (fallbackDay topic)))]

/-- The `days` field of a learning-plan value, as a list. -/
def planDays (j : Json) : List Json :=
  match jsGet j "days" with
  | some (.arr xs) => xs
  | _ => []

/-- `generateLearningPlan` (lines 501-551).  With no client, or on any failure
in the `try` (no/empty response, strict-parse failure), it returns the local
fallback plan; on a successful parse it returns the parsed object **as is** —
there is no coercion step in this operation (`return JSON.parse(cleanedContent)`,
line 545), the `LearningPlan` return type being a compile-time annotation
only.  Note: no `fixJsonEscaping` here either. -/
def generateLearningPlan (groq : Bool) (resp : Option String) (topic : String)
    (durationDays : Nat) (level dailyTime : String) : Json :=
  let _ := (level, dailyTime)
  if !groq then createFallbackLearningPlan topic durationDays
  else
    match resp with
    | none => createFallbackLearningPlan topic durationDays
    | some content =>
      if content = "" then createFallbackLearningPlan topic durationDays
      else
        match parseJson (cleanJsonResponse content) with
        | some j => j
        | none => createFallbackLearningPlan topic durationDays

/-- Result shape of `getDetailedSubtopicContent`.  The array fields hold raw
parsed values: the coercion (lines 619-621) filters falsy elements but never
converts them to strings, despite the declared `string[]` type. -/
structure DetailedContent where
  content : String
  keyPoints : List Json
  examples : List Json
  practicalApplications : List Json

/-- The no-client result of `getDetailedSubtopicContent` (lines 565-572). -/
def noGroqDetailedContent (topic subtopic : String) : DetailedContent :=
  { content := "# " ++ subtopic ++ "\n\nThis is a detailed explanation of " ++ subtopic ++
      " in the context of " ++ topic ++
      ". The content would normally be generated by AI, but the API is not currently available."
    keyPoints := [.str ("Key concept 1 about " ++ subtopic),
                  .str ("Key concept 2 about " ++ subtopic)]
    examples := [.str ("Example 1 for " ++ subtopic), .str ("Example 2 for " ++ subtopic)]
    practicalApplications := [.str ("Application 1 of " ++ subtopic),
                              .str ("Application 2 of " ++ subtopic)] }

/-- The catch-path result of `getDetailedSubtopicContent` (lines 623-640).
The catch block guards the manual extraction with
`if (typeof response === 'string')`, but `response` is a `const` declared
inside the `try` block and is **not in scope** in the catch handler; `typeof`
of an undeclared name evaluates to `"undefined"`, so
`extractContentFromResponse` is never invoked, `fallbackContent` keeps its
defaults, and `fallbackContent.content || '…'` selects the placeholder. -/
def detailedContentCatch : DetailedContent :=
  { content := "Content could not be extracted from the response."
    keyPoints := []
    examples := []
    practicalApplications := [] }

/-- The success-path coercion of `getDetailedSubtopicContent`
(lines 617-622). -/
def coerceDetailed (p : Json) : DetailedContent :=
  { content := strOrDefault (jsGet p "content") "Content not available"
    keyPoints := arrFilterTruthy (jsGet p "keyPoints")
    examples := arrFilterTruthy (jsGet p "examples")
    practicalApplications := arrFilterTruthy (jsGet p "practicalApplications") }

/-- `getDetailedSubtopicContent` (lines 553-641).  `parsed = null` routes to
the catch path because `parsed.content` throws a TypeError on `null`. -/
def getDetailedSubtopicContent (groq : Bool) (resp : Option String)
    (topic dayTitle subtopic level : String) : DetailedContent :=
  let _ := (dayTitle, level)
  if !groq then noGroqDetailedContent topic subtopic
  else
    match resp with
    | none => detailedContentCatch
    | some response =>
      if response = "" then detailedContentCatch
      else
        match parseJson (fixJsonEscaping (cleanJsonResponse response)) with
        | some .null => detailedContentCatch
        | some p => coerceDetailed p
        | none => detailedContentCatch

/-- One multiple-choice question of a quiz result (coerced, so fully
stringly-typed: the quiz coercion maps `String` over the arrays). -/
structure McqQuestion where
  question : String
  options : List String
  correctAnswer : String
  explanation : String

/-- One theory question of a quiz result. -/
structure TheoryQuestion where
  question : String
  correctAnswer : String
  keyPoints : List String

structure QuizSet where
  mcq : List McqQuestion
  theory : List TheoryQuestion

/-- `subtopics[0] || 'Understanding the basics'`: the first element unless the
list is empty or its first element is the (falsy) empty string. -/
def firstSubtopic (subtopics : List String) : String :=
  match subtopics with
  | [] => "Understanding the basics"
  | s :: _ => if s = "" then "Understanding the basics" else s

/-- The no-client quiz of `generateQuizQuestions` (lines 690-708). -/
def quizNoGroq (dayTitle : String) (subtopics explanations : List String) : QuizSet :=
  { mcq := [{ question := "What is the main focus of " ++ dayTitle ++ "?"
              options := subtopics.take 4
              correctAnswer := firstSubtopic subtopics
              explanation := "This question tests understanding of the lesson structure." }]
    theory := [{ question := "Explain the key concepts covered in " ++ dayTitle ++ "."
                 correctAnswer := "The lesson covers: " ++ String.intercalate ", " subtopics ++
                   ". " ++ String.intercalate " " explanations
                 keyPoints := subtopics.take 3 }] }

/-- The catch-path quiz of `generateQuizQuestions` (lines 775-791); it differs
from the no-client quiz only in the MCQ question text. -/
def quizCatch (dayTitle : String) (subtopics explanations : List String) : QuizSet :=
  { mcq := [{ question := "What is the main focus of today's lesson: " ++ dayTitle ++ "?"
              options := subtopics.take 4
              correctAnswer := firstSubtopic subtopics
              explanation := "This question tests understanding of the lesson structure." }]
    theory := [{ question := "Explain the key concepts covered in " ++ dayTitle ++ "."
                 correctAnswer := "The lesson covers: " ++ String.intercalate ", " subtopics ++
                   ". " ++ String.intercalate " " explanations
                 keyPoints := subtopics.take 3 }] }

def coerceMcq (q : Json) : McqQuestion :=
  { question := strOrDefault (jsGet q "question") ""
    options := arrMapString (jsGet q "options")
    correctAnswer := strOrDefault (jsGet q "correct_answer") ""
    explanation := strOrDefault (jsGet q "explanation") "" }

def coerceTheory (q : Json) : TheoryQuestion :=
  { question := strOrDefault (jsGet q "question") ""
    correctAnswer := strOrDefault (jsGet q "correct_answer") ""
    keyPoints := arrMapString (jsGet q "key_points") }

/-- Does the (would-be) array field contain a `null` element?  Mapping the
per-question coercion over such an array throws a TypeError on property
access, sending `generateQuizQuestions` to its catch path. -/
def hasNullElem (v : Option Json) : Bool :=
  match v with
  | some (.arr xs) => xs.any (fun x => match x with | .null => true | _ => false)
  | _ => false

/-- The success-path coercion of `generateQuizQuestions` (lines 758-770). -/
def coerceQuiz (p : Json) : QuizSet :=
  { mcq := (arrRaw (jsGet p "mcq")).map coerceMcq
    theory := (arrRaw (jsGet p "theory")).map coerceTheory }

/-- `generateQuizQuestions` (lines 672-793). -/
def generateQuizQuestions (groq : Bool) (resp : Option String) (dayTitle : String)
    (subtopics explanations : List String) : QuizSet :=
  if !groq then quizNoGroq dayTitle subtopics explanations
  else
    match resp with
    | none => quizCatch dayTitle subtopics explanations
    | some response =>
      if response = "" then quizCatch dayTitle subtopics explanations
      else
        match parseJson (fixJsonEscaping (cleanJsonResponse response)) with
        | some .null => quizCatch dayTitle subtopics explanations
        | some p =>
          if hasNullElem (jsGet p "mcq") || hasNullElem (jsGet p "theory") then
            quizCatch dayTitle subtopics explanations
          else coerceQuiz p
        | none => quizCatch dayTitle subtopics explanations

structure GradingResult where
  score : Rat
  feedback : String
  strengths : List String
  improvements : List String

/-- The local fallback grade of `gradeTheoryAnswer`, appearing verbatim in
both the no-client path (lines 806-814) and the catch path (lines 856-867):
7 when the answer exceeds 50 characters, else 5, with fixed feedback text
driven only by that same threshold. -/
def fallbackGrade (userAnswer : String) : GradingResult :=
  let score : Rat := if 50 < userAnswer.length then 7 else 5
  { score
    feedback := "Your answer shows " ++ (if 7 ≤ score then "good" else "basic") ++
      " understanding. Consider elaborating more on the key concepts."
    strengths := ["Attempted to answer the question"]
    improvements := ["Provide more detailed explanations", "Include specific examples"] }

/-- The success-path coercion of `gradeTheoryAnswer` (lines 850-855). -/
def coerceGrade (p : Json) : GradingResult :=
  { score := scoreOf (jsGet p "score")
    feedback := strOrDefault (jsGet p "feedback") "No feedback available"
    strengths := arrMapString (jsGet p "strengths")
    improvements := arrMapString (jsGet p "improvements") }

/-- `gradeTheoryAnswer` (lines 795-868). -/
def gradeTheoryAnswer (groq : Bool) (resp : Option String)
    (question userAnswer correctAnswer : String) (keyPoints : List String) : GradingResult :=
  let _ := (question, correctAnswer, keyPoints)
  if !groq then fallbackGrade userAnswer
  else
    match resp with
    | none => fallbackGrade userAnswer
    | some response =>
      if response = "" then fallbackGrade userAnswer
      else
        match parseJson (fixJsonEscaping (cleanJsonResponse response)) with
        | some .null => fallbackGrade userAnswer
        | some p => coerceGrade p
        | none => fallbackGrade userAnswer

/-- Result shape of `askTutorQuestion`; `codeExamples` is optional in the
declared type and genuinely absent from the no-client result.  The three
array fields keep raw parsed elements (lines 933-935 have no `map(String)`). -/
structure TutorAnswer where
  answer : String
  codeExamples : Option (List Json)
  relatedConcepts : List Json
  furtherReading : List Json

/-- `askTutorQuestion` (lines 870-947).  Its catch handler (lines 937-946)
reads `completion.choices[0]?.message?.content`, but `completion` is a `const`
declared inside the `try` block and not in scope in the catch, so entering the
catch — on a missing/empty response, a strict-parse failure, or `parsed =
null` — throws a ReferenceError out of the operation instead of returning the
intended fallback. -/
def askTutorQuestion (groq : Bool) (resp : Option String)
    (context question : String) : Except JsError TutorAnswer :=
  let _ := context
  if !groq then
    .ok { answer := "I understand you're asking about: \"" ++ question ++
            "\". While I can't provide a detailed AI-generated response right now, I recommend reviewing the lesson content and exploring the detailed explanations for each subtopic."
          codeExamples := none
          relatedConcepts := []
          furtherReading := [] }
  else
    match resp with
    | none => .error .referenceError
    | some response =>
      if response = "" then .error .referenceError
      else
        match parseJson (fixJsonEscaping (cleanJsonResponse response)) with
        | some .null => .error .referenceError
        | some p =>
          .ok { answer := strOrDefault (jsGet p "answer") ""
                codeExamples := some (arrRaw (jsGet p "codeExamples"))
                relatedConcepts := arrRaw (jsGet p "relatedConcepts")
                furtherReading := arrRaw (jsGet p "furtherReading") }
        | none => .error .referenceError

/-- Is the JSON value a string? (used to state typing counterexamples). -/
def isJsonStr : Json → Bool
  | .str _ => true
  | _ => false

/-! ### Verified statements -/

/-- If the input already parses strictly, the repair engine returns it
unchanged (lines 301-304 of the source). -/
theorem fixJsonEscaping_of_parses (t : String) (v : Json) (hv : parseJson t = some v) :
    fixJsonEscaping t = t := by
  simp only [fixJsonEscaping]
  rw [hv]

/-- C6: for every input string that already parses under strict JSON parsing,
the Escape Repair Engine returns the input unchanged, and the subsequent
strict parse succeeds on the first attempt. -/
theorem fixJsonEscaping_id_on_valid (s : String) (h : (parseJson s).isSome) :
    fixJsonEscaping s = s ∧ (parseJson (fixJsonEscaping s)).isSome := by
  obtain ⟨v, hv⟩ := Option.isSome_iff_exists.mp h
  have he := fixJsonEscaping_of_parses s v hv
  exact ⟨he, by rw [he]; exact h⟩

/-- Witness for C6 at the concrete valid input `{"a": true}`. -/
theorem fixJsonEscaping_id_on_valid_witness :
    (parseJson "\x7b\"a\": true\x7d").isSome = true ∧
      (fixJsonEscaping "\x7b\"a\": true\x7d" = "\x7b\"a\": true\x7d" ∧
        (parseJson (fixJsonEscaping "\x7b\"a\": true\x7d")).isSome) :=
  ⟨by decide, fixJsonEscaping_id_on_valid "\x7b\"a\": true\x7d" (by decide)⟩

/-- C5 counterexample: the Escape Repair Engine is **not** idempotent.  On
`{"answer": "ab", "x": }` (which never becomes parseable), the first run
re-quotes the `answer` field as `"\bab\b"` — the word-boundary replace of
line 320 inserting literal `\b` marks — and the second run, finding neither an
escaped newline nor an escaped quote in that group, escapes it again to
`"\\\bbab\b\\\bb\b"`. -/
theorem fixJsonEscaping_not_idempotent :
    fixJsonEscaping (fixJsonEscaping "\x7b\"answer\": \"ab\", \"x\": \x7d") ≠
      fixJsonEscaping "\x7b\"answer\": \"ab\", \"x\": \x7d" := by
  decide

/-- C5 amended: running the Escape Repair Engine twice yields the same text as
running it once **whenever one run produces strictly-parseable text** (in
particular on every input that already parses); full idempotence fails, see
the counterexample. -/
theorem fixJsonEscaping_idem_of_parses (s : String)
    (h : (parseJson (fixJsonEscaping s)).isSome) :
    fixJsonEscaping (fixJsonEscaping s) = fixJsonEscaping s := by
  obtain ⟨v, hv⟩ := Option.isSome_iff_exists.mp h
  exact fixJsonEscaping_of_parses _ v hv

/-- Witness for the amended C5 at the concrete input `{}`. -/
theorem fixJsonEscaping_idem_of_parses_witness :
    (parseJson (fixJsonEscaping "\x7b\x7d")).isSome = true ∧
      fixJsonEscaping (fixJsonEscaping "\x7b\x7d") = fixJsonEscaping "\x7b\x7d" :=
  ⟨by decide, fixJsonEscaping_idem_of_parses "\x7b\x7d" (by decide)⟩

/-- C1: `askTutorQuestion` does **not** always return: on a model response
that fails strict parsing even after repair, the `try` throws, and the catch
handler itself throws a ReferenceError (it reads `completion`, a `const`
declared inside the `try` block and out of scope in the catch), so the
exception escapes the operation's boundary. -/
theorem askTutorQuestion_raises_on_unparseable :
    askTutorQuestion true (some "not json") "lesson context" "What is recursion?" =
      .error .referenceError := by
  rfl

/-- C3: the fallback extraction of `getDetailedSubtopicContent` is dead code.
On the unparseable response `"content": "hello" oops` the extractor
`extractContentFromResponse` would salvage `content = "hello"`, but the catch
block guards it with `typeof response === 'string'` where `response` is not in
scope (it is `const`-bound inside the `try`), so the operation returns the
all-defaults object instead of the extracted fields. -/
theorem getDetailed_fallback_extraction_dead :
    getDetailedSubtopicContent true (some "\"content\": \"hello\" oops")
        "Rust" "Day 1" "Basics" "beginner" = detailedContentCatch ∧
      extractContentFromResponse "\"content\": \"hello\" oops" =
        { content := "hello", keyPoints := [], examples := [],
          practicalApplications := [] } ∧
      detailedContentCatch.content ≠ "hello" :=
  ⟨rfl, rfl, by decide⟩

/-- C4: the end-to-end backtick-repair example does **not** produce
`"line1\nline2"`.  Passes 1-2 do escape the backtick-quoted newline, but the
final step of every escape chain, `.replace(/\b/g, '\\b')` (line 320,
commented "Escape backspaces"), is a word-boundary replace that inserts
literal `\b` sequences; pass 3 then re-escapes the field (its group now
contains neither `\n` nor `\"`), and the strict parse of the result turns the
inserted `\b` escapes into raw backspace characters in the content. -/
theorem getDetailed_backtick_example :
    (getDetailedSubtopicContent true
        (some "```json\n\x7b\"content\": `line1\nline2`\x7d\n```")
        "Rust" "Day 1" "Basics" "beginner").content =
      "\\\x08bline1\x08\\\x08b\x08\\\\\x08bnline2\x08\\\x08b\x08" ∧
      "\\\x08bline1\x08\\\x08b\x08\\\\\x08bnline2\x08\\\x08b\x08" ≠ "line1\nline2" ∧
      '\x08' ∈ ("\\\x08bline1\x08\\\x08b\x08\\\\\x08bnline2\x08\\\x08b\x08" : String).data :=
  ⟨rfl, by decide, by decide⟩

/-- C2 counterexample: the coerced result is not always made of correctly
typed fields.  `getDetailedSubtopicContent` filters but never stringifies
array elements, so the valid response `{"content":"x","keyPoints":[1]}` yields
`keyPoints = [1]`, an array whose element is a number, not a string; and
`generateLearningPlan` applies no coercion at all, returning the parsed object
`{"days": 5}` with a number where the claim requires an array. -/
theorem domainResult_not_fully_typed :
    (getDetailedSubtopicContent true (some "\x7b\"content\":\"x\",\"keyPoints\":[1]\x7d")
        "Rust" "Day 1" "Basics" "beginner") =
      { content := "x", keyPoints := [Json.num 1], examples := [],
        practicalApplications := [] } ∧
      ((getDetailedSubtopicContent true (some "\x7b\"content\":\"x\",\"keyPoints\":[1]\x7d")
          "Rust" "Day 1" "Basics" "beginner").keyPoints.all isJsonStr) = false ∧
      generateLearningPlan true (some "\x7b\"days\": 5\x7d") "Rust" 3 "beginner" "1 hour" =
        Json.obj [("days", Json.num 5)] :=
  ⟨rfl, rfl, rfl⟩

/-- C2 amended: in `getDetailedSubtopicContent`'s coercion every missing field
is replaced by the documented default ("Content not available" for the content
string, the empty array for the three array fields); a present string content
passes through, and a present array is kept (filtered of falsy elements)
without converting its elements. -/
theorem coerceDetailed_defaults (p : Json) :
    (jsGet p "content" = none → (coerceDetailed p).content = "Content not available") ∧
    (jsGet p "keyPoints" = none → (coerceDetailed p).keyPoints = []) ∧
    (jsGet p "examples" = none → (coerceDetailed p).examples = []) ∧
    (jsGet p "practicalApplications" = none →
      (coerceDetailed p).practicalApplications = []) ∧
    (∀ s : String, jsGet p "content" = some (.str s) → s ≠ "" →
      (coerceDetailed p).content = s) ∧
    (∀ xs : List Json, jsGet p "keyPoints" = some (.arr xs) →
      (coerceDetailed p).keyPoints = xs.filter jsTruthy) := by
  refine ⟨fun h => ?_, fun h => ?_, fun h => ?_, fun h => ?_,
    fun s h hs => ?_, fun xs h => ?_⟩
  · simp [coerceDetailed, strOrDefault, h]
  · simp [coerceDetailed, arrFilterTruthy, h]
  · simp [coerceDetailed, arrFilterTruthy, h]
  · simp [coerceDetailed, arrFilterTruthy, h]
  · simp [coerceDetailed, strOrDefault, h, jsTruthy, hs, jsToString]
  · simp [coerceDetailed, arrFilterTruthy, h]

/-- Witness for the amended C2 at two concrete parsed objects. -/
theorem coerceDetailed_defaults_witness :
    ((coerceDetailed (Json.obj [])).content = "Content not available" ∧
      (coerceDetailed (Json.obj [])).keyPoints = []) ∧
      ((coerceDetailed (Json.obj [("content", Json.str "hi"),
          ("keyPoints", Json.arr [Json.num 1, Json.null])])).content = "hi" ∧
        (coerceDetailed (Json.obj [("content", Json.str "hi"),
          ("keyPoints", Json.arr [Json.num 1, Json.null])])).keyPoints =
            [Json.num 1, Json.null].filter jsTruthy) :=
  ⟨⟨(coerceDetailed_defaults (Json.obj [])).1 rfl,
    (coerceDetailed_defaults (Json.obj [])).2.1 rfl⟩,
   ⟨((coerceDetailed_defaults _).2.2.2.2.1) "hi" rfl (by decide),
    ((coerceDetailed_defaults _).2.2.2.2.2) [Json.num 1, Json.null] rfl⟩⟩

/-- C8: the grading score coercion clamps to [0, 10]: the five documented
inputs −5, 15, `"8"`, `"abc"`, and missing coerce to 0, 10, 8, 0, 0, every
coerced score lies in [0, 10], and the full operation agrees. -/
theorem gradeScore_clamped :
    (coerceGrade (Json.obj [("score", Json.num (-5))])).score = 0 ∧
    (coerceGrade (Json.obj [("score", Json.num 15)])).score = 10 ∧
    (coerceGrade (Json.obj [("score", Json.str "8")])).score = 8 ∧
    (coerceGrade (Json.obj [("score", Json.str "abc")])).score = 0 ∧
    (coerceGrade (Json.obj [])).score = 0 ∧
    (gradeTheoryAnswer true (some "\x7b\"score\": 15\x7d") "q" "a" "c" []).score = 10 ∧
    (∀ p : Json, 0 ≤ (coerceGrade p).score ∧ (coerceGrade p).score ≤ 10) := by
  refine ⟨by decide, by decide, by decide, by decide, by decide, by decide, fun p => ?_⟩
  simp only [coerceGrade, scoreOf]
  cases toNumber (jsGet p "score") with
  | nan => norm_num
  | posInf => norm_num
  | negInf => norm_num
  | fin q =>
    dsimp only
    by_cases h1 : (10 : Rat) ≤ q
    · rw [if_pos h1, if_neg (by norm_num : ¬ (10 : Rat) ≤ 0)]
      norm_num
    · rw [if_neg h1]
      by_cases h2 : q ≤ 0
      · rw [if_pos h2]; norm_num
      · rw [if_neg h2]
        exact ⟨le_of_not_le h2, le_of_lt (lt_of_not_le h1)⟩

/-- C9: with no model client, `generateLearningPlan` skips invocation and
returns the locally computed fallback plan; the fallback plan for topic `t`
and duration `d` has `min d 7` days, day `i+1` (0-based index `i`) being
titled `"Day {i+1}: Introduction to {t}"`; the concrete "Rust"/10 call has
exactly `min 10 7 = 7` days. -/
theorem generateLearningPlan_no_client (r : Option String) (t : String) (d i : Nat)
    (h : i < min d 7) :
    generateLearningPlan false r "Rust" 10 "beginner" "30 minutes" =
      createFallbackLearningPlan "Rust" 10 ∧
    (planDays (createFallbackLearningPlan "Rust" 10)).length = 7 ∧
    (planDays (createFallbackLearningPlan t d)).length = min d 7 ∧
    (planDays (createFallbackLearningPlan t d))[i]? = some (fallbackDay t (1 + i)) ∧
    jsGet (fallbackDay t (1 + i)) "title" =
      some (.str ("Day " ++ toString (1 + i) ++ ": Introduction to " ++ t)) := by
  refine ⟨rfl, by decide, ?_, ?_, rfl⟩
  · simp [planDays, createFallbackLearningPlan, jsGet, List.length_range']
  · simp [planDays, createFallbackLearningPlan, jsGet, List.getElem?_map,
      List.getElem?_range' 1 1 h]

/-- Witness for C9 at `t := "Rust"`, `d := 10`, `i := 0`. -/
theorem generateLearningPlan_no_client_witness :
    (0 < min 10 7) ∧
      (generateLearningPlan false none "Rust" 10 "beginner" "30 minutes" =
          createFallbackLearningPlan "Rust" 10 ∧
        (planDays (createFallbackLearningPlan "Rust" 10)).length = 7 ∧
        (planDays (createFallbackLearningPlan "Rust" 10)).length = min 10 7 ∧
        (planDays (createFallbackLearningPlan "Rust" 10))[0]? =
          some (fallbackDay "Rust" (1 + 0)) ∧
        jsGet (fallbackDay "Rust" (1 + 0)) "title" =
          some (.str ("Day " ++ toString (1 + 0) ++ ": Introduction to " ++ "Rust"))) :=
  ⟨by decide, generateLearningPlan_no_client none "Rust" 10 0 (by decide)⟩

/-- C10: both fallback paths of `gradeTheoryAnswer` (no client; failed parse
of the model response) grade by answer length alone: score 7 when the answer
exceeds 50 characters and 5 otherwise, with fixed feedback, strengths and
improvements; the fallback grade depends only on the answer's length, never on
the question, the reference answer, or the key points. -/
theorem gradeTheoryAnswer_fallback_by_length (r : Option String)
    (question userAnswer correctAnswer : String) (keyPoints : List String)
    (resp : String) (hne : resp ≠ "")
    (hparse : parseJson (fixJsonEscaping (cleanJsonResponse resp)) = none) :
    gradeTheoryAnswer false r question userAnswer correctAnswer keyPoints =
      fallbackGrade userAnswer ∧
    gradeTheoryAnswer true none question userAnswer correctAnswer keyPoints =
      fallbackGrade userAnswer ∧
    gradeTheoryAnswer true (some resp) question userAnswer correctAnswer keyPoints =
      fallbackGrade userAnswer ∧
    fallbackGrade userAnswer =
      { score := if 50 < userAnswer.length then 7 else 5
        feedback := "Your answer shows " ++
          (if 50 < userAnswer.length then "good" else "basic") ++
          " understanding. Consider elaborating more on the key concepts."
        strengths := ["Attempted to answer the question"]
        improvements := ["Provide more detailed explanations", "Include specific examples"] } ∧
    (∀ a b : String, a.length = b.length → fallbackGrade a = fallbackGrade b) := by
  refine ⟨rfl, rfl, ?_, ?_, fun a b hab => ?_⟩
  · simp only [gradeTheoryAnswer]
    rw [if_neg hne, hparse]
    rfl
  · by_cases hl : 50 < userAnswer.length
    · simp [fallbackGrade, hl]
    · simp [fallbackGrade, hl, show ¬ (7 : Rat) ≤ 5 by norm_num]
  · simp only [fallbackGrade, hab]

/-- Witness for C10 at a concrete unparseable response and short answer. -/
theorem gradeTheoryAnswer_fallback_by_length_witness :
    gradeTheoryAnswer true (some "no json") "Q" "short" "CA" [] =
        fallbackGrade "short" ∧
      fallbackGrade "short" =
        { score := if 50 < ("short" : String).length then 7 else 5
          feedback := "Your answer shows " ++
            (if 50 < ("short" : String).length then "good" else "basic") ++
            " understanding. Consider elaborating more on the key concepts."
          strengths := ["Attempted to answer the question"]
          improvements := ["Provide more detailed explanations", "Include specific examples"] } :=
  ⟨(gradeTheoryAnswer_fallback_by_length none "Q" "short" "CA" [] "no json"
      (by decide) (by rfl)).2.2.1,
   (gradeTheoryAnswer_fallback_by_length none "Q" "short" "CA" [] "no json"
      (by decide) (by rfl)).2.2.2.1⟩

/-- C7 counterexample: the Normalizer removes only the `json` language tag.
For text `"X"` wrapped in a fence tagged `python`, the source strips just the
three-backtick delimiters, leaving the tag in the output, which is therefore
not the wrapped text. -/
theorem cleanJsonResponse_keeps_other_lang_tag :
    cleanJsonResponse "```python\nX\n```" = "python\nX" ∧
      cleanJsonResponse "```python\nX\n```" ≠ "X" :=
  ⟨rfl, by decide⟩

theorem length_dropWhile_le (p : Char → Bool) (l : List Char) :
    (l.dropWhile p).length ≤ l.length := by
  induction l with
  | nil => simp
  | cons c l ih =>
    rw [List.dropWhile_cons]
    split
    · simp only [List.length_cons]
      omega
    · simp

theorem dropWhile_eq_self_of_length (p : Char → Bool) (l : List Char)
    (h : (l.dropWhile p).length = l.length) : l.dropWhile p = l := by
  induction l with
  | nil => simp
  | cons c l ih =>
    rw [List.dropWhile_cons] at h ⊢
    by_cases hc : p c = true
    · rw [if_pos hc] at h ⊢
      exfalso
      have hle := length_dropWhile_le p l
      simp only [List.length_cons] at h
      omega
    · rw [if_neg hc]

/-- A trimmed list is already stripped on both ends. -/
theorem trimList_parts (u : List Char) (h : trimList u = u) :
    u.dropWhile isJsWs = u ∧ u.reverse.dropWhile isJsWs = u.reverse := by
  have h1 : (trimList u).length = u.length := by rw [h]
  have l2 : ((u.dropWhile isJsWs).reverse.dropWhile isJsWs).length ≤
      (u.dropWhile isJsWs).length := by
    have := length_dropWhile_le isJsWs (u.dropWhile isJsWs).reverse
    simpa using this
  have l3 : (u.dropWhile isJsWs).length ≤ u.length := length_dropWhile_le _ _
  have l1 : (trimList u).length =
      ((u.dropWhile isJsWs).reverse.dropWhile isJsWs).length := by
    simp [trimList]
  have hfront : u.dropWhile isJsWs = u :=
    dropWhile_eq_self_of_length _ _ (by omega)
  refine ⟨hfront, ?_⟩
  have : trimList u = (u.reverse.dropWhile isJsWs).reverse := by
    rw [trimList, hfront]
  rw [this] at h
  have := congrArg List.reverse h
  simpa using this

/-- The head of a self-stable `dropWhile` list fails the predicate. -/
theorem head_not_of_dropWhile (p : Char → Bool) (c : Char) (l : List Char)
    (h : (c :: l).dropWhile p = c :: l) : p c = false := by
  by_cases hc : p c = true
  · exfalso
    rw [List.dropWhile_cons, if_pos hc] at h
    have hle := length_dropWhile_le p l
    have hlen := congrArg List.length h
    simp only [List.length_cons] at hlen
    omega
  · simpa using hc

/-- Dropping whitespace does not touch a list whose first element survives. -/
theorem dropWhile_ws_front (u rest : List Char) (hu : u.dropWhile isJsWs = u)
    (hne : u ≠ []) : (u ++ rest).dropWhile isJsWs = u ++ rest := by
  match u, hne with
  | c :: u', _ =>
    have hc := head_not_of_dropWhile isJsWs c u' hu
    simp [List.dropWhile_cons, hc]

/-- C7 amended: the Normalizer returns the wrapped text byte-identically when
the fence's language tag is `json` or absent (and is the identity with no
fence at all); a fence with any other language tag loses only its delimiters,
the tag itself surviving into the output — see the counterexample. -/
theorem cleanJsonResponse_fenced (t : String) (ht : trimList t.data = t.data)
    (hne : t ≠ "") :
    cleanJsonResponse ("```json\n" ++ t ++ "\n```") = t ∧
    cleanJsonResponse ("```\n" ++ t ++ "\n```") = t ∧
    (List.isPrefixOf bareFence t.data = false →
      endsWithList bareFence t.data = false → cleanJsonResponse t = t) := by
  set u := t.data with hu
  have hune : u ≠ [] := by
    intro hd
    exact hne (String.ext (by rw [← hu, hd]))
  obtain ⟨hfront, hback⟩ := trimList_parts u ht
  -- shared tail: the suffix "\n```" appended to `u`
  have hrev2 : (u ++ ['\n', '`', '`', '`']).reverse =
      '`' :: '`' :: '`' :: '\n' :: u.reverse := by
    simp
  have hdrop2 : (u ++ ['\n', '`', '`', '`']).dropWhile isJsWs =
      u ++ ['\n', '`', '`', '`'] := dropWhile_ws_front u _ hfront hune
  have htrim2 : trimList (u ++ ['\n', '`', '`', '`']) = u ++ ['\n', '`', '`', '`'] := by
    rw [trimList, hdrop2, hrev2]
    rw [List.dropWhile_cons, if_neg (by decide)]
    rw [← hrev2, List.reverse_reverse]
  have hmid : trimList ('\n' :: (u ++ ['\n', '`', '`', '`'])) =
      u ++ ['\n', '`', '`', '`'] := by
    rw [trimList, List.dropWhile_cons, if_pos (by decide), hdrop2, hrev2]
    rw [List.dropWhile_cons, if_neg (by decide)]
    rw [← hrev2, List.reverse_reverse]
  have hsuffix : endsWithList bareFence (u ++ ['\n', '`', '`', '`']) = true := by
    rw [endsWithList, hrev2]
    rfl
  have htake : (u ++ ['\n', '`', '`', '`']).take
      ((u ++ ['\n', '`', '`', '`']).length - 3) = u ++ ['\n'] := by
    rw [List.length_append]
    simp only [List.length_cons, List.length_nil]
    rw [show u.length + 4 - 3 = u.length + 1 by omega]
    rw [List.take_append_eq_append_take, List.take_of_length_le (by omega)]
    rw [show u.length + 1 - u.length = 1 by omega]
    rfl
  have hlast : trimList (u ++ ['\n']) = u := by
    rw [trimList, dropWhile_ws_front u _ hfront hune]
    rw [show (u ++ ['\n']).reverse = '\n' :: u.reverse by simp]
    rw [List.dropWhile_cons, if_pos (by decide), hback, List.reverse_reverse]
  have hstrip2 : stripTrailFence (u ++ ['\n', '`', '`', '`']) = u := by
    rw [stripTrailFence, if_pos hsuffix, htake, hlast]
  refine ⟨?_, ?_, ?_⟩
  · -- the ```json-tagged fence
    show String.mk (cleanCore ("```json\n" ++ t ++ "\n```").data) = t
    have hdata : ("```json\n" ++ t ++ "\n```").data =
        jsonFence ++ ('\n' :: (u ++ ['\n', '`', '`', '`'])) := by
      rw [String.data_append, String.data_append, ← hu]
      rfl
    rw [hdata]
    have hX : jsonFence ++ ('\n' :: (u ++ ['\n', '`', '`', '`'])) =
        '`' :: '`' :: '`' :: 'j' :: 's' :: 'o' :: 'n' :: '\n' :: (u ++ ['\n', '`', '`', '`']) := rfl
    have htrim0 : trimList (jsonFence ++ ('\n' :: (u ++ ['\n', '`', '`', '`']))) =
        jsonFence ++ ('\n' :: (u ++ ['\n', '`', '`', '`'])) := by
      rw [hX, trimList, List.dropWhile_cons, if_neg (by decide)]
      rw [show ('`' :: '`' :: '`' :: 'j' :: 's' :: 'o' :: 'n' :: '\n' ::
          (u ++ ['\n', '`', '`', '`'])).reverse =
        '`' :: '`' :: '`' :: '\n' :: (u.reverse ++
          ['\n', 'n', 'o', 's', 'j', '`', '`', '`']) by simp]
      rw [List.dropWhile_cons, if_neg (by decide)]
      rw [show ('`' :: '`' :: '`' :: '\n' :: (u.reverse ++
          ['\n', 'n', 'o', 's', 'j', '`', '`', '`'])) =
        ('`' :: '`' :: '`' :: 'j' :: 's' :: 'o' :: 'n' :: '\n' ::
          (u ++ ['\n', '`', '`', '`'])).reverse by simp]
      rw [List.reverse_reverse]
    have hpre : List.isPrefixOf jsonFence
        (jsonFence ++ ('\n' :: (u ++ ['\n', '`', '`', '`']))) = true :=
      List.isPrefixOf_iff_prefix.mpr (List.prefix_append _ _)
    have hdrop7 : (jsonFence ++ ('\n' :: (u ++ ['\n', '`', '`', '`']))).drop 7 =
        '\n' :: (u ++ ['\n', '`', '`', '`']) := by
      rw [show (7 : Nat) = jsonFence.length from rfl]
      exact List.drop_left _ _
    rw [cleanCore, htrim0, stripLeadFence, if_pos hpre, hdrop7, hmid, hstrip2]
  · -- the untagged fence
    show String.mk (cleanCore ("```\n" ++ t ++ "\n```").data) = t
    have hdata : ("```\n" ++ t ++ "\n```").data =
        bareFence ++ ('\n' :: (u ++ ['\n', '`', '`', '`'])) := by
      rw [String.data_append, String.data_append, ← hu]
      rfl
    rw [hdata]
    have htrim0 : trimList (bareFence ++ ('\n' :: (u ++ ['\n', '`', '`', '`']))) =
        bareFence ++ ('\n' :: (u ++ ['\n', '`', '`', '`'])) := by
      rw [show bareFence ++ ('\n' :: (u ++ ['\n', '`', '`', '`'])) =
        '`' :: '`' :: '`' :: '\n' :: (u ++ ['\n', '`', '`', '`']) from rfl]
      rw [trimList, List.dropWhile_cons, if_neg (by decide)]
      rw [show ('`' :: '`' :: '`' :: '\n' :: (u ++ ['\n', '`', '`', '`'])).reverse =
        '`' :: '`' :: '`' :: '\n' :: (u.reverse ++ ['\n', '`', '`', '`']) by simp]
      rw [List.dropWhile_cons, if_neg (by decide)]
      rw [show ('`' :: '`' :: '`' :: '\n' :: (u.reverse ++ ['\n', '`', '`', '`'])) =
        ('`' :: '`' :: '`' :: '\n' :: (u ++ ['\n', '`', '`', '`'])).reverse by simp]
      rw [List.reverse_reverse]
    have hprej : List.isPrefixOf jsonFence
        (bareFence ++ ('\n' :: (u ++ ['\n', '`', '`', '`']))) = false := by
      rfl
    have hpreb : List.isPrefixOf bareFence
        (bareFence ++ ('\n' :: (u ++ ['\n', '`', '`', '`']))) = true :=
      List.isPrefixOf_iff_prefix.mpr (List.prefix_append _ _)
    have hdrop3 : (bareFence ++ ('\n' :: (u ++ ['\n', '`', '`', '`']))).drop 3 =
        '\n' :: (u ++ ['\n', '`', '`', '`']) := by
      rw [show (3 : Nat) = bareFence.length from rfl]
      exact List.drop_left _ _
    rw [cleanCore, htrim0, stripLeadFence, if_neg (by simp [hprej]), if_pos hpreb,
      hdrop3, hmid, hstrip2]
  · -- no fence at all: identity
    intro hpre hsuf
    show String.mk (cleanCore u) = t
    have hj : List.isPrefixOf jsonFence u = false := by
      by_cases hcase : List.isPrefixOf jsonFence u = true
      · exfalso
        have hjp := List.isPrefixOf_iff_prefix.mp hcase
        have hbp : bareFence <+: u :=
          List.IsPrefix.trans ⟨"json".data, rfl⟩ hjp
        rw [List.isPrefixOf_iff_prefix.mpr hbp] at hpre
        simp at hpre
      · simp only [Bool.not_eq_true] at hcase
        exact hcase
    rw [cleanCore, ht, stripLeadFence, if_neg (by simp [hj]),
      if_neg (by simp [hpre]), stripTrailFence, if_neg (by simp [hsuf])]

/-- Witness for the amended C7 at the concrete text `"X"`. -/
theorem cleanJsonResponse_fenced_witness :
    cleanJsonResponse ("```json\n" ++ "X" ++ "\n```") = "X" ∧
      cleanJsonResponse ("```\n" ++ "X" ++ "\n```") = "X" ∧
      cleanJsonResponse "X" = "X" :=
  ⟨(cleanJsonResponse_fenced "X" (by decide) (by decide)).1,
   (cleanJsonResponse_fenced "X" (by decide) (by decide)).2.1,
   (cleanJsonResponse_fenced "X" (by decide) (by decide)).2.2 (by rfl) (by rfl)⟩
